import Mathlib

set_option maxRecDepth 16000

/-!
Verification of the spex-api claim/ownership state machine and vCard
renderer (src/src/server.js), as a shallow embedding in Lean 4.

Conventions of the embedding:
* JS strings are `String`; a nullable/optional JS value is an `Option`.
* JS truthiness on an optional string (`!!v`) is `optTruthy`:
  `undefined`/`null` and `""` are falsy, a non-empty string is truthy.
* JWTs are modelled symbolically: `Token.signed payload secret exp` is the
  result of `jwt.sign(payload, secret, {expiresIn})`; `Token.malformed` is
  any string that does not verify.  `Token.verify` mirrors `jwt.verify`:
  it succeeds iff the secret matches and the token is not expired, and is
  otherwise indistinguishable (one failure outcome), like the server's
  single `catch` branch.
* Timestamps are `Nat` (seconds).
* The database is a list of `Card` rows; `prisma.card.updateMany` with
  `where: { uid, claimedAt: null }` is `updateManyClaim` (atomic count +
  conditional write, the store's compare-and-swap primitive);
  `prisma.card.update` with `where: { uid }` is `prismaUpdate`, which
  *throws* (`Except.error`) when no row matches, exactly as the Prisma
  client does (error P2025).  The PUT route has no try/catch, so that
  error escapes the handler.
* `socials` is a JSON mapping, modelled as an association list; the
  stored column is nullable (`Option Socials`), and `{}` is `some []`.
-/

/-- JS truthiness of a nullable string: `undefined`, `null` and `""` are
falsy. -/
def optTruthy : Option String → Bool
  | none => false
  | some s => !s.isEmpty

/-- JS `v || ''` on a nullable string. -/
def jsStr : Option String → String
  | none => ""
  | some s => s

/-- JS `a || b || ''` over two nullable strings. -/
def jsOr (a b : Option String) : String :=
  if optTruthy a then jsStr a else if optTruthy b then jsStr b else ""

/-- JS falsiness test used by `if (!uid || !claimToken)`. -/
def strFalsy : Option String → Bool
  | none => true
  | some s => s.isEmpty

/-- The shared signing secret (`process.env.JWT_SECRET || 'dev-secret'`). -/
def JWT_SECRET : String := "dev-secret"

/-- `expiresIn: '90d'` in seconds. -/
def NINETY_DAYS : Nat := 90 * 24 * 60 * 60

/-- Payload of a signed token: `{uid, purpose:'claim'}` for claim tokens,
`{uid}` (no purpose) for ownership tokens. -/
structure Payload where
  uid : String
  purpose : Option String
deriving DecidableEq

/-- A bearer token: either something produced by `jwt.sign` (payload,
secret, optional expiry) or an arbitrary non-verifying string. -/
inductive Token where
  | signed (payload : Payload) (secret : String) (exp : Option Nat)
  | malformed (raw : String)
deriving DecidableEq

/-- Expiry check of `jwt.verify`: a token with no `exp` never expires. -/
def tokenFresh (now : Nat) : Option Nat → Bool
  | none => true
  | some e => decide (now < e)

/-- `jwt.verify(token, secret)`: returns the payload, or fails (the code
observes failure only through its `catch`). -/
def Token.verify (secret : String) (now : Nat) : Token → Option Payload
  | Token.signed p s exp =>
      if s = secret ∧ tokenFresh now exp = true then some p else none
  | Token.malformed _ => none

/-- `jwt.sign({ uid, purpose: 'claim' }, JWT_SECRET)` — the claim token
minted by `GET /api/card/:uid` for an unclaimed card (no expiry). -/
def mintClaimToken (uid : String) : Token :=
  Token.signed ⟨uid, some "claim"⟩ JWT_SECRET none

/-- `jwt.sign({ uid }, JWT_SECRET, { expiresIn: '90d' })` — the ownership
token returned by a successful claim at time `now`. -/
def mintOwnershipToken (uid : String) (now : Nat) : Token :=
  Token.signed ⟨uid, none⟩ JWT_SECRET (some (now + NINETY_DAYS))

/-- JSON `socials` mapping (platform name to URL/handle). -/
abbrev Socials := List (String × String)

/-- A `Card` row (prisma model; see prisma/migrations): profile columns
plus claim metadata.  `claimedAt = none` means unclaimed. -/
structure Card where
  uid : String
  name : Option String := none
  company : Option String := none
  title : Option String := none
  phone : Option String := none
  mobile : Option String := none
  email : Option String := none
  emailPublic : Option String := none
  website : Option String := none
  address : Option String := none
  socials : Option Socials := none
  imageUrl : Option String := none
  claimedAt : Option Nat := none
  claimedByEmail : Option String := none
  createdAt : Nat := 0
deriving DecidableEq

/-- The profile object of a claim/edit request body (all fields
optional). -/
structure ProfileIn where
  name : Option String := none
  company : Option String := none
  title : Option String := none
  phone : Option String := none
  mobile : Option String := none
  email : Option String := none
  website : Option String := none
  address : Option String := none
  socials : Option Socials := none
  imageUrl : Option String := none
deriving DecidableEq

/-- The ten writable profile columns of a card (the fields the claim and
edit routes write; `emailPublic` is not writable by either route). -/
structure StoredProfile where
  name : Option String
  company : Option String
  title : Option String
  phone : Option String
  mobile : Option String
  email : Option String
  website : Option String
  address : Option String
  socials : Option Socials
  imageUrl : Option String
deriving DecidableEq

/-- Project the writable profile columns out of a card. -/
def storedProfile (c : Card) : StoredProfile :=
  ⟨c.name, c.company, c.title, c.phone, c.mobile, c.email, c.website,
   c.address, c.socials, c.imageUrl⟩

/-- What a submitted (possibly absent) profile object is stored as:
`profile?.f ?? null` for each text field and `profile?.socials ?? {}`
for `socials`. -/
def submittedProfile (p : Option ProfileIn) : StoredProfile :=
  ⟨p.bind ProfileIn.name, p.bind ProfileIn.company, p.bind ProfileIn.title,
   p.bind ProfileIn.phone, p.bind ProfileIn.mobile, p.bind ProfileIn.email,
   p.bind ProfileIn.website, p.bind ProfileIn.address,
   some ((p.bind ProfileIn.socials).getD []),
   p.bind ProfileIn.imageUrl⟩

/-- The `data` object of the PUT route (`p.f ?? null`, `p.socials ?? {}`):
overwrites exactly the ten writable profile columns, touching nothing
else. -/
def applyEditData (p : Option ProfileIn) (c : Card) : Card :=
  { c with
    name := p.bind ProfileIn.name
    company := p.bind ProfileIn.company
    title := p.bind ProfileIn.title
    phone := p.bind ProfileIn.phone
    mobile := p.bind ProfileIn.mobile
    email := p.bind ProfileIn.email
    website := p.bind ProfileIn.website
    address := p.bind ProfileIn.address
    socials := some ((p.bind ProfileIn.socials).getD [])
    imageUrl := p.bind ProfileIn.imageUrl }

/-- The `data` object of the claim route: the same profile overwrite plus
`claimedAt: new Date()` and `claimedByEmail: emailForLogin ?? null`. -/
def applyClaimData (now : Nat) (p : Option ProfileIn)
    (emailForLogin : Option String) (c : Card) : Card :=
  { applyEditData p c with
    claimedAt := some now
    claimedByEmail := emailForLogin }

/-- `prisma.card.updateMany({ where: { uid, claimedAt: null }, data })`:
returns the matched-row count and conditionally rewrites matching rows,
as one atomic store operation. -/
def updateManyClaim (now : Nat) (uid : String) (p : Option ProfileIn)
    (emailForLogin : Option String) (store : List Card) :
    Nat × List Card :=
  ((store.filter (fun c => c.uid = uid ∧ c.claimedAt = none)).length,
   store.map (fun c =>
     if c.uid = uid ∧ c.claimedAt = none then
       applyClaimData now p emailForLogin c
     else c))

/-- Prisma store error: `prisma.card.update` rejects with P2025 when the
`where` clause matches no row. -/
inductive StoreErr where
  | recordNotFound
deriving DecidableEq

/-- `prisma.card.update({ where: { uid }, data })`: unconditional rewrite
of the matching row, throwing `recordNotFound` when there is none. -/
def prismaUpdate (uid : String) (f : Card → Card) (store : List Card) :
    Except StoreErr (List Card) :=
  if store.any (fun c => c.uid = uid) then
    Except.ok (store.map (fun c => if c.uid = uid then f c else c))
  else Except.error StoreErr.recordNotFound

/-- `prisma.card.findUnique({ where: { uid } })`. -/
def findUnique (uid : String) (store : List Card) : Option Card :=
  store.find? (fun c => c.uid = uid)

/-- Body of a `POST /api/card/claim` request. -/
structure ClaimReq where
  uid : Option String := none
  claimToken : Option Token := none
  profile : Option ProfileIn := none
  emailForLogin : Option String := none
deriving DecidableEq

/-- Responses of `POST /api/card/claim`.  In the spec's error taxonomy,
`missingParams` is `MissingParams`; `invalidToken` (HTTP 400
`invalid_token`) and `tokenExpiredOrInvalid` (HTTP 401
`token_expired_or_invalid`) are both `InvalidCredential`;
`alreadyClaimed` (HTTP 409) is `AlreadyClaimed`. -/
inductive ClaimResp where
  | missingParams
  | invalidToken
  | tokenExpiredOrInvalid
  | alreadyClaimed
  | ok (uid : String) (authToken : Token)
deriving DecidableEq

/-- JS falsiness of the `claimToken` body field (`!claimToken`): absent,
null, or the empty string.  On the wire the token is a string; a string
produced by `jwt.sign` is never empty (header.payload.signature), so in
the model only the `malformed` representation can be the empty string. -/
def tokenFalsy : Option Token → Bool
  | none => true
  | some (Token.signed _ _ _) => false
  | some (Token.malformed s) => s.isEmpty

/-- The `POST /api/card/claim` handler (server.js lines 154-191): the
`if (!uid || !claimToken)` missing-params check (absent or empty values
are falsy), token verification, purpose/identifier scoping check, atomic
conditional claim write, ownership token mint. -/
def claimHandler (now : Nat) (req : ClaimReq) (store : List Card) :
    ClaimResp × List Card :=
  if strFalsy req.uid || tokenFalsy req.claimToken then
    (ClaimResp.missingParams, store)
  else
    match req.uid, req.claimToken with
    | some uid, some tok =>
      (match tok.verify JWT_SECRET now with
      | none => (ClaimResp.tokenExpiredOrInvalid, store)
      | some payload =>
        if payload.purpose ≠ some "claim" ∨ payload.uid ≠ uid then
          (ClaimResp.invalidToken, store)
        else
          let r := updateManyClaim now uid req.profile req.emailForLogin store
          if r.1 = 0 then (ClaimResp.alreadyClaimed, r.2)
          else (ClaimResp.ok uid (mintOwnershipToken uid now), r.2))
    | _, _ => (ClaimResp.missingParams, store)

/-- Responses of `PUT /api/card/:uid`.  `noToken`/`badToken` are the
`requireAuth` 401s (spec: `Unauthenticated`/`InvalidCredential`),
`forbidden` is the 403 scoping failure, `success` is `{ok:true}`. -/
inductive EditResp where
  | noToken
  | badToken
  | forbidden
  | success
deriving DecidableEq

/-- The `PUT /api/card/:uid` handler behind `requireAuth` (server.js lines
253-273).  A missing bearer token is `none`.  Note the route does not
catch the store's `recordNotFound`, so that error escapes (`Except.error`)
instead of becoming an HTTP response. -/
def editHandler (now : Nat) (uidParam : String) (bearer : Option Token)
    (profile : Option ProfileIn) (store : List Card) :
    Except StoreErr (EditResp × List Card) :=
  match bearer with
  | none => Except.ok (EditResp.noToken, store)
  | some tok =>
    match tok.verify JWT_SECRET now with
    | none => Except.ok (EditResp.badToken, store)
    | some payload =>
      if payload.uid ≠ uidParam then Except.ok (EditResp.forbidden, store)
      else
        match prismaUpdate uidParam (applyEditData profile) store with
        | Except.error e => Except.error e
        | Except.ok store2 => Except.ok (EditResp.success, store2)

/-- Sequential execution of a batch of claim calls against the store, in
serialization order.  Each call's only store interaction is the single
atomic `updateManyClaim`, so every concurrent execution of the calls is
equivalent to running them in some order; the returned trace records the
response and the (complete) store state after each call, which is exactly
what a concurrent reader can observe. -/
def runClaims : List (Nat × ClaimReq) → List Card →
    List (ClaimResp × List Card)
  | [], _ => []
  | (t, r) :: rest, store =>
    let step := claimHandler t r store
    (step.1, step.2) :: runClaims rest step.2

/-- Whitespace characters recognised by JS `\s` and `trim()` (ASCII
range; the repository's data is ASCII). -/
def isWsChar (c : Char) : Bool :=
  c = ' ' ∨ c = '\t' ∨ c = '\n' ∨ c = '\r' ∨ c = '\x0b' ∨ c = '\x0c'

/-- Drop trailing whitespace characters. -/
def dropTrailingWs (l : List Char) : List Char :=
  (l.reverse.dropWhile isWsChar).reverse

/-- JS `String.prototype.trim()`. -/
def jsTrim (s : String) : String :=
  String.mk (dropTrailingWs (s.data.dropWhile isWsChar))

/-- Maximal non-whitespace runs of a character list (`acc` carries the
current run, reversed). -/
def tokenRunsAux (acc : List Char) : List Char → List (List Char)
  | [] => if acc.isEmpty then [] else [acc.reverse]
  | c :: r =>
    if isWsChar c then
      if acc.isEmpty then tokenRunsAux [] r
      else acc.reverse :: tokenRunsAux [] r
    else tokenRunsAux (c :: acc) r

/-- The whitespace-separated tokens of a string (spec side: "the
whitespace-separated tokens of the name"). -/
def wsTokens (s : String) : List String :=
  (tokenRunsAux [] s.data).map String.mk

/-- JS `s.trim().split(/\s+/)`: after trimming, the split is the list of
maximal non-whitespace runs — except that splitting the empty string
yields `[""]` (JS `''.split(/\s+/) === ['']`). -/
def splitWsJS (s : String) : List String :=
  let t := jsTrim s
  if t.isEmpty then [""] else wsTokens t

/-- The first/last name components of the `N:` line (server.js lines
209-211): `parts[0] || ''` and, when there are at least two parts, the
final part. -/
def vcardNameParts (name : String) : String × String :=
  let parts := splitWsJS name
  (jsStr parts.head?, if 1 < parts.length then jsStr parts.getLast? else "")

/-- The rendered name line `N:${last};${first};;;` (server.js line
217). -/
def vcardNLine (card : Card) : String :=
  "N:" ++ ((vcardNameParts (jsStr card.name)).2 ++ ";" ++
    (vcardNameParts (jsStr card.name)).1 ++ ";;;")

/-- The line list built by `vcardFrom` (server.js lines 214-227) before
`.filter(Boolean)` drops the `''` entries of unpopulated fields. -/
def vcardLines (card : Card) : List String :=
  let email := jsOr card.emailPublic card.email
  (["BEGIN:VCARD",
    "VERSION:3.0",
    vcardNLine card,
    "FN:" ++ jsStr card.name,
    if optTruthy card.company then "ORG:" ++ jsStr card.company else "",
    if optTruthy card.title then "TITLE:" ++ jsStr card.title else "",
    if optTruthy card.mobile then "TEL;TYPE=CELL,VOICE:" ++ jsStr card.mobile else "",
    if optTruthy card.phone then "TEL;TYPE=WORK,VOICE:" ++ jsStr card.phone else "",
    if !email.isEmpty then "EMAIL;TYPE=INTERNET:" ++ email else "",
    if optTruthy card.website then "URL:" ++ jsStr card.website else "",
    if optTruthy card.address then "ADR;TYPE=WORK:;;" ++ jsStr card.address ++ ";;;;" else "",
    "END:VCARD"]).filter (fun l => !l.isEmpty)

/-- JS `lines.join('\r\n')`. -/
def joinCRLF : List String → String
  | [] => ""
  | s :: rest => if rest.isEmpty then s else s ++ "\r\n" ++ joinCRLF rest

/-- `vcardFrom(card)` (server.js lines 208-228): the rendered vCard text.
Field values are interpolated verbatim — there is no escaping and no line
folding in this renderer. -/
def vcardFrom (card : Card) : String :=
  joinCRLF (vcardLines card)

/-- `hasProfileData(c)` (server.js lines 194-207): true iff one of the
ten identity-carrying columns is truthy (`socials` is not consulted). -/
def hasProfileData (c : Card) : Bool :=
  optTruthy c.name || optTruthy c.mobile || optTruthy c.phone ||
  optTruthy c.emailPublic || optTruthy c.email || optTruthy c.company ||
  optTruthy c.title || optTruthy c.website || optTruthy c.address ||
  optTruthy c.imageUrl

/-- Result of `GET /api/card/:uid.vcf`: 404, 204 No Content, or the file
with its content-disposition filename. -/
inductive ExportResp where
  | notFound
  | noContent
  | file (filename : String) (body : String)
deriving DecidableEq

/-- The `GET /api/card/:uid.vcf` handler (server.js lines 230-249). -/
def exportHandler (uid : String) (store : List Card) : ExportResp :=
  match findUnique uid store with
  | none => ExportResp.notFound
  | some c =>
    if hasProfileData c then ExportResp.file (uid ++ ".vcf") (vcardFrom c)
    else ExportResp.noContent



/-!
The standalone QR-generator script (scripts/gen_qrs.mjs, final variant)
has the escaping/folding renderer: `vEscape` applies the four global
replaces in source order (backslash, line break, comma, semicolon) and
`foldVCard` soft-wraps each line at 70 characters with a CRLF + space
continuation.  `unescVCard`/`unfoldLines` are the spec-side re-parsers
per the contact-file format (vCard 3.0 unescaping and unfolding).
-/

/-- `.replace(/\\/g, "\\\\")`: double every backslash. -/
def escBack : List Char → List Char
  | [] => []
  | c :: r => if c = '\\' then '\\' :: '\\' :: escBack r else c :: escBack r

/-- `.replace(/\r\n|\n|\r/g, "\\n")`: every line break becomes the
two-character escape backslash-n. -/
def escNL : List Char → List Char
  | [] => []
  | '\r' :: '\n' :: r => '\\' :: 'n' :: escNL r
  | '\r' :: r => '\\' :: 'n' :: escNL r
  | '\n' :: r => '\\' :: 'n' :: escNL r
  | c :: r => c :: escNL r

/-- `.replace(/,/g, "\\,")`. -/
def escComma : List Char → List Char
  | [] => []
  | c :: r => if c = ',' then '\\' :: ',' :: escComma r else c :: escComma r

/-- `.replace(/;/g, "\;")`. -/
def escSemi : List Char → List Char
  | [] => []
  | c :: r => if c = ';' then '\\' :: ';' :: escSemi r else c :: escSemi r

/-- `vEscape(s)` of the QR script: the four replaces in source order. -/
def vEscape (s : String) : String :=
  String.mk (escSemi (escComma (escNL (escBack s.data))))

/-- vCard 3.0 text-value unescaping (the re-parser): backslash-backslash,
backslash-n, backslash-comma, backslash-semicolon become the bare
character; anything else is kept as-is. -/
def unescVCard : List Char → List Char
  | [] => []
  | c :: r =>
    if c = '\\' then
      match r with
      | [] => ['\\']
      | d :: r2 =>
        if d = '\\' then '\\' :: unescVCard r2
        else if d = 'n' then '\n' :: unescVCard r2
        else if d = ',' then ',' :: unescVCard r2
        else if d = ';' then ';' :: unescVCard r2
        else '\\' :: d :: unescVCard r2
    else c :: unescVCard r

/-- One iteration bound of the `while (rest.length > 70)` loop of
`foldVCard`, with explicit fuel.  Each iteration emits a 70-character
chunk followed by CRLF and the continuation space.  With `fuel ≥
l.length` the fuel never runs out (each iteration consumes 70 > 0
characters), so `foldGo l.length l` is exactly the source loop. -/
def foldGo : Nat → List Char → List Char
  | 0, rest => rest
  | fuel + 1, rest =>
    if rest.length ≤ 70 then rest
    else rest.take 70 ++ '\r' :: '\n' :: ' ' :: foldGo fuel (rest.drop 70)

/-- Fold a single (line-break-free) line per the QR script's `foldVCard`
body. -/
def foldLine (l : List Char) : List Char := foldGo l.length l

/-- Split a character stream into its physical lines at CRLF. -/
def splitCRLF : List Char → List (List Char)
  | [] => [[]]
  | '\r' :: '\n' :: r => [] :: splitCRLF r
  | c :: r =>
    match splitCRLF r with
    | [] => [[c]]
    | x :: xs => (c :: x) :: xs

/-- `foldVCard(text)` of the QR script: split on line breaks, fold each
line, re-join with CRLF. -/
def foldVCard (text : String) : String :=
  String.mk (List.intercalate ['\r', '\n']
    ((splitCRLF text.data).map foldLine))

/-- Unfolding per the contact-file format: delete every CRLF that is
immediately followed by a space, together with that space. -/
def unfoldLines : List Char → List Char
  | [] => []
  | '\r' :: '\n' :: ' ' :: r => unfoldLines r
  | c :: r => c :: unfoldLines r

/-- True iff every comma and semicolon in the list is immediately
preceded by a backslash and the list contains no raw line break —
the claim's escaped-output condition.  `prev` is the previous
character (initially an arbitrary non-backslash). -/
def escapedOkAux (prev : Char) : List Char → Bool
  | [] => true
  | c :: r =>
    if c = '\n' ∨ c = '\r' then false
    else if (c = ',' ∨ c = ';') ∧ prev ≠ '\\' then false
    else escapedOkAux c r

/-- Escaped-output condition at the start of a field value. -/
def escapedOk (l : List Char) : Bool := escapedOkAux 'A' l

/-- True iff some comma in the list is not immediately preceded by a
backslash (negation witness for the claim's escaping property). -/
def hasUnescapedCommaAux (prev : Char) : List Char → Bool
  | [] => false
  | c :: r => (c = ',' ∧ prev ≠ '\\') ∨ hasUnescapedCommaAux c r

/-- Unescaped-comma test at the start of a field value. -/
def hasUnescapedComma (l : List Char) : Bool := hasUnescapedCommaAux 'A' l


/-!  Spec-side predicates and concrete fixtures used by the theorems. -/

/-- Some field of the set the export gate consults is populated: the
nine rendered text fields plus `imageUrl`.  This is NOT "every profile
field carrying identity-relevant information": `socials` — identity
data, merely unrendered — is not in the set, while `imageUrl` is in it
although `vcardFrom` never renders it either.  The amended C7 states the
export behaviour against this explicit field set. -/
def consultedFieldPopulated (c : Card) : Prop :=
  optTruthy c.name = true ∨ optTruthy c.mobile = true ∨
  optTruthy c.phone = true ∨ optTruthy c.emailPublic = true ∨
  optTruthy c.email = true ∨ optTruthy c.company = true ∨
  optTruthy c.title = true ∨ optTruthy c.website = true ∨
  optTruthy c.address = true ∨ optTruthy c.imageUrl = true

/-- Every profile field of the card is absent. -/
def profileAllAbsent (c : Card) : Prop :=
  c.name = none ∧ c.company = none ∧ c.title = none ∧ c.phone = none ∧
  c.mobile = none ∧ c.email = none ∧ c.emailPublic = none ∧
  c.website = none ∧ c.address = none ∧ c.socials = none ∧
  c.imageUrl = none

/-- The fixed boilerplate header/footer lines of the rendered file. -/
def boilerplateLines : List String :=
  ["BEGIN:VCARD", "VERSION:3.0", "END:VCARD"]

/-- An identifier as provisioned by the admin routes (`nanoid(10)`). -/
def wUid : String := "abcdefghij"

/-- A second, distinct identifier. -/
def wUidB : String := "zzzzzzzzzz"

/-- Unclaimed blank card for `wUid`. -/
def wCardU : Card := { uid := wUid }

/-- A claimed card for `wUid` (claimed at time 50). -/
def wCardC : Card :=
  { uid := wUid, name := some "Ada Lovelace", claimedAt := some 50,
    claimedByEmail := some "ada@example.com" }

/-- An unclaimed card for `wUid` that already carries admin-prefilled
socials. -/
def wCardSoc : Card := { uid := wUid, socials := some [("x", "y")] }

/-- First claimant's profile. -/
def wProfile1 : ProfileIn :=
  { name := some "Ada Lovelace", company := some "Analytical Engines" }

/-- Second claimant's profile. -/
def wProfile2 : ProfileIn := { name := some "Bob" }

/-- First claimant's request. -/
def wReq1 : ClaimReq :=
  { uid := some wUid, claimToken := some (mintClaimToken wUid),
    profile := some wProfile1, emailForLogin := some "ada@example.com" }

/-- Second claimant's request (same identifier, its own valid token). -/
def wReq2 : ClaimReq :=
  { uid := some wUid, claimToken := some (mintClaimToken wUid),
    profile := some wProfile2 }

/-- Card whose company field contains a comma (C8 counterexample). -/
def wCardComma : Card := { uid := wUid, name := some "A", company := some "a,b" }

/-- Card with a three-word name (C9 counterexample). -/
def wCardThreeName : Card := { uid := wUid, name := some "Ada Byron Lovelace" }

/-- Card whose only populated profile field is `imageUrl` (C7
counterexample: nothing renderable, yet a file is returned). -/
def wCardImg : Card := { uid := wUid, imageUrl := some "https://img" }

/-- A 100-character line, for exercising the folding loop. -/
def wLongLine : List Char := List.replicate 100 'x'

/-!  Helper lemmas about the claim handler. -/

/-- A minted claim token verifies to its payload at any time (it carries
no expiry). -/
theorem verify_mintClaimToken (uid : String) (now : Nat) :
    (mintClaimToken uid).verify JWT_SECRET now = some ⟨uid, some "claim"⟩ := by
  simp [mintClaimToken, Token.verify, tokenFresh]

/-- A minted ownership token verifies to `{uid}` while unexpired. -/
theorem verify_mintOwnershipToken (uid : String) (t now : Nat)
    (h : now < t + NINETY_DAYS) :
    (mintOwnershipToken uid t).verify JWT_SECRET now = some ⟨uid, none⟩ := by
  simp [mintOwnershipToken, Token.verify, tokenFresh, h]

/-- A minted claim token is never the empty string. -/
theorem tokenFalsy_mint (uid : String) :
    tokenFalsy (some (mintClaimToken uid)) = false := rfl

/-- A valid claim call on a store whose single row is unclaimed: the
conditional write succeeds and an ownership token is returned. -/
theorem claimHandler_unclaimed (t : Nat) (p : Option ProfileIn)
    (e : Option String) (c : Card) (hun : c.claimedAt = none)
    (he : c.uid.isEmpty = false) :
    claimHandler t ⟨some c.uid, some (mintClaimToken c.uid), p, e⟩ [c] =
      (ClaimResp.ok c.uid (mintOwnershipToken c.uid t),
       [applyClaimData t p e c]) := by
  simp [claimHandler, strFalsy, tokenFalsy_mint, verify_mintClaimToken, he,
    updateManyClaim, hun]

/-- A claim call on a store whose single row is already claimed never
changes the store, whatever the request contains. -/
theorem claimHandler_claimed_noop (t : Nat) (r : ClaimReq) (c : Card)
    (ts : Nat) (hcl : c.claimedAt = some ts) :
    (claimHandler t r [c]).2 = [c] := by
  rcases r with ⟨u, tk, p, e⟩
  by_cases hg : (strFalsy u || tokenFalsy tk) = true
  · simp [claimHandler, hg]
  · cases u with
    | none => simp [strFalsy] at hg
    | some uid =>
      cases tk with
      | none => simp [strFalsy, tokenFalsy] at hg
      | some tok =>
        cases hv : tok.verify JWT_SECRET t with
        | none => simp [claimHandler, hg, hv]
        | some payload =>
          by_cases hp : payload.purpose ≠ some "claim" ∨ payload.uid ≠ uid
          · simp [claimHandler, hg, hv, hp]
          · simp [claimHandler, hg, hv, hp, updateManyClaim, hcl]

/-- A valid claim call on a store whose single row is already claimed
returns `alreadyClaimed` and leaves the store unchanged. -/
theorem claimHandler_claimed (t : Nat) (r : ClaimReq) (c : Card) (ts : Nat)
    (hcl : c.claimedAt = some ts) (he : c.uid.isEmpty = false)
    (hud : r.uid = some c.uid)
    (htk : r.claimToken = some (mintClaimToken c.uid)) :
    claimHandler t r [c] = (ClaimResp.alreadyClaimed, [c]) := by
  rcases r with ⟨u, tk, p, e⟩
  simp only at hud htk
  subst hud htk
  simp [claimHandler, strFalsy, tokenFalsy_mint, verify_mintClaimToken, he,
    updateManyClaim, hcl]

/-- Once the single row is claimed, a batch of valid claim calls yields
`alreadyClaimed` for every call and never changes the store. -/
theorem runClaims_claimed (c : Card) (ts : Nat) (hcl : c.claimedAt = some ts)
    (he : c.uid.isEmpty = false) (reqs : List (Nat × ClaimReq))
    (hval : ∀ p ∈ reqs, p.2.uid = some c.uid ∧
      p.2.claimToken = some (mintClaimToken c.uid)) :
    runClaims reqs [c] = reqs.map (fun _ => (ClaimResp.alreadyClaimed, [c])) := by
  induction reqs with
  | nil => rfl
  | cons hd rest ih =>
    obtain ⟨t, r⟩ := hd
    obtain ⟨h1, h2⟩ := hval (t, r) (List.mem_cons_self _ _)
    have hstep := claimHandler_claimed t r c ts hcl he h1 h2
    have ih2 := ih (fun p hp => hval p (List.mem_cons_of_mem _ hp))
    simp [runClaims, hstep, ih2]

/-- C1: for every identifier whose card is unclaimed, among N concurrent
claim calls on it (modelled as the calls running in an arbitrary
serialization order, legitimate because each call's only store access is
the single atomic conditional write), each carrying a valid claim token,
exactly one call — the first serialized — succeeds and returns a fresh
ownership token; every other call gets `alreadyClaimed`; and after every
step the store holds exactly the full row written by the winner (so a
concurrent reader only ever sees the fully-unclaimed or the fully-claimed
row), whose stored profile equals exactly the winner's submitted
profile. -/
theorem C1_at_most_one_claim (c : Card) (hun : c.claimedAt = none)
    (he : c.uid.isEmpty = false) (reqs : List (Nat × ClaimReq))
    (hne : reqs ≠ [])
    (hval : ∀ p ∈ reqs, p.2.uid = some c.uid ∧
      p.2.claimToken = some (mintClaimToken c.uid)) :
    ∃ t0 r0 rest, reqs = (t0, r0) :: rest ∧
      runClaims reqs [c] =
        (ClaimResp.ok c.uid (mintOwnershipToken c.uid t0),
          [applyClaimData t0 r0.profile r0.emailForLogin c]) ::
        rest.map (fun _ => (ClaimResp.alreadyClaimed,
          [applyClaimData t0 r0.profile r0.emailForLogin c])) ∧
      storedProfile (applyClaimData t0 r0.profile r0.emailForLogin c) =
        submittedProfile r0.profile ∧
      (applyClaimData t0 r0.profile r0.emailForLogin c).claimedAt = some t0 := by
  match reqs, hne with
  | (t0, r0) :: rest, _ =>
    refine ⟨t0, r0, rest, rfl, ?_, rfl, rfl⟩
    obtain ⟨u0, tk0, p0, e0⟩ := r0
    obtain ⟨h1, h2⟩ := hval (t0, ⟨u0, tk0, p0, e0⟩) (List.mem_cons_self _ _)
    simp only at h1 h2
    subst h1 h2
    have hstep := claimHandler_unclaimed t0 p0 e0 c hun he
    have hcW : (applyClaimData t0 p0 e0 c).claimedAt = some t0 := rfl
    have huW : (applyClaimData t0 p0 e0 c).uid = c.uid := rfl
    have htail := runClaims_claimed (applyClaimData t0 p0 e0 c) t0 hcW
      (by rw [huW]; exact he) rest
      (fun p hp => by
        rw [huW]
        exact hval p (List.mem_cons_of_mem _ hp))
    simp [runClaims, hstep, htail]

/-- Witness for C1 at a concrete two-call race on the blank card. -/
theorem C1_witness :
    ∃ t0 r0 rest,
      ([(5, wReq1), (6, wReq2)] : List (Nat × ClaimReq)) = (t0, r0) :: rest ∧
      runClaims [(5, wReq1), (6, wReq2)] [wCardU] =
        (ClaimResp.ok wCardU.uid (mintOwnershipToken wCardU.uid t0),
          [applyClaimData t0 r0.profile r0.emailForLogin wCardU]) ::
        rest.map (fun _ => (ClaimResp.alreadyClaimed,
          [applyClaimData t0 r0.profile r0.emailForLogin wCardU])) ∧
      storedProfile (applyClaimData t0 r0.profile r0.emailForLogin wCardU) =
        submittedProfile r0.profile ∧
      (applyClaimData t0 r0.profile r0.emailForLogin wCardU).claimedAt = some t0 :=
  C1_at_most_one_claim wCardU rfl rfl [(5, wReq1), (6, wReq2)]
    (by decide) (by decide)

/-- C2 counterexample: on an already-claimed card (`wCardC.claimedAt =
some 50`), a claim call whose token does not verify is answered with
`tokenExpiredOrInvalid` (the spec's `InvalidCredential`), not
`alreadyClaimed` — so "always returns AlreadyClaimed with any token" is
false as stated. -/
theorem C2_counterexample :
    wCardC.claimedAt = some 50 ∧
    (claimHandler 60 ⟨some wUid, some (Token.malformed "x"), none, none⟩
        [wCardC]).1 ≠ ClaimResp.alreadyClaimed := by
  constructor
  · rfl
  · decide

/-- C2 (amended): calling claim on an already-claimed identifier never
mutates the stored card (neither profile nor claim fields), with any
token whatsoever; and whenever the submitted token is a valid claim
token for that identifier, the call returns `alreadyClaimed`.  (A token
that fails verification or is scoped elsewhere instead yields the
`InvalidCredential`-family responses, still without mutation.) -/
theorem C2_reclaim_never_mutates (t : Nat) (c : Card) (ts : Nat)
    (r : ClaimReq) (hcl : c.claimedAt = some ts) :
    (claimHandler t r [c]).2 = [c] ∧
    (c.uid.isEmpty = false → r.uid = some c.uid →
      r.claimToken = some (mintClaimToken c.uid) →
      claimHandler t r [c] = (ClaimResp.alreadyClaimed, [c])) :=
  ⟨claimHandler_claimed_noop t r c ts hcl,
   fun he h1 h2 => claimHandler_claimed t r c ts hcl he h1 h2⟩

/-- Witness for the amended C2 on the claimed fixture card. -/
theorem C2_witness :
    (claimHandler 60 wReq1 [wCardC]).2 = [wCardC] ∧
    claimHandler 60 wReq1 [wCardC] = (ClaimResp.alreadyClaimed, [wCardC]) :=
  ⟨(C2_reclaim_never_mutates 60 wCardC 50 wReq1 rfl).1,
   (C2_reclaim_never_mutates 60 wCardC 50 wReq1 rfl).2 rfl rfl rfl⟩

/-- C3: a claim call whose token verifies but whose decoded purpose is
not "claim" or whose decoded identifier differs from the request's
identifier is rejected with `invalidToken` (the spec's
`InvalidCredential`) and the store is unchanged. -/
theorem C3_claim_token_scoping (now : Nat) (uid : String)
    (h0 : uid.isEmpty = false) (tok : Token) (payload : Payload)
    (hv : tok.verify JWT_SECRET now = some payload)
    (hbad : payload.purpose ≠ some "claim" ∨ payload.uid ≠ uid)
    (p : Option ProfileIn) (e : Option String) (store : List Card) :
    claimHandler now ⟨some uid, some tok, p, e⟩ store =
      (ClaimResp.invalidToken, store) := by
  cases tok with
  | malformed s => simp [Token.verify] at hv
  | signed pl sec exp =>
    simp [claimHandler, strFalsy, tokenFalsy, h0, hv, hbad]

/-- Witness for C3: a claim token minted for `wUid`, submitted against
`wUidB`. -/
theorem C3_witness :
    claimHandler 7 ⟨some wUidB, some (mintClaimToken wUid), some wProfile1,
        none⟩ [wCardU] = (ClaimResp.invalidToken, [wCardU]) :=
  C3_claim_token_scoping 7 wUidB rfl (mintClaimToken wUid)
    ⟨wUid, some "claim"⟩ (by decide) (Or.inr (by decide)) (some wProfile1)
    none [wCardU]

/-- C4: an edit call whose bearer token verifies but decodes to a
different identifier than the one being edited is rejected with
`forbidden` and no store write occurs. -/
theorem C4_ownership_scoping (now : Nat) (uidParam : String) (tok : Token)
    (payload : Payload) (hv : tok.verify JWT_SECRET now = some payload)
    (hne : payload.uid ≠ uidParam) (profile : Option ProfileIn)
    (store : List Card) :
    editHandler now uidParam (some tok) profile store =
      Except.ok (EditResp.forbidden, store) := by
  simp [editHandler, hv, hne]

/-- Witness for C4: an ownership token for `wUid` used to edit
`wUidB`. -/
theorem C4_witness :
    editHandler 5 wUidB (some (mintOwnershipToken wUid 0)) (some wProfile1)
        [wCardU] = Except.ok (EditResp.forbidden, [wCardU]) :=
  C4_ownership_scoping 5 wUidB (mintOwnershipToken wUid 0) ⟨wUid, none⟩
    (by decide) (by decide) (some wProfile1) [wCardU]

/-- C5: evaluation of the edit route at the failing input — a valid,
correctly scoped ownership token for `wUidB`, a store with no row for
`wUidB`.  `prisma.card.update` rejects (P2025) and the route has no
try/catch, so the error escapes the handler instead of becoming the
`NotFound` response the spec requires; there is no 404 path in this
route at all. -/
theorem C5_missing_row_unhandled :
    editHandler 5 wUidB (some (mintOwnershipToken wUidB 0)) none [wCardU] =
      Except.error StoreErr.recordNotFound := rfl

/-- C6: an edit call with a verifying, correctly scoped bearer token
rewrites exactly the ten writable profile columns to the submitted
values and leaves `uid`, `createdAt`, `claimedAt`, `claimedByEmail` (and
the never-written `emailPublic`) untouched, whatever the submitted
profile contains. -/
theorem C6_edit_frame (now : Nat) (tok : Token) (payload : Payload)
    (c : Card) (profile : Option ProfileIn)
    (hv : tok.verify JWT_SECRET now = some payload)
    (hid : payload.uid = c.uid) :
    editHandler now c.uid (some tok) profile [c] =
      Except.ok (EditResp.success, [applyEditData profile c]) ∧
    (applyEditData profile c).uid = c.uid ∧
    (applyEditData profile c).createdAt = c.createdAt ∧
    (applyEditData profile c).claimedAt = c.claimedAt ∧
    (applyEditData profile c).claimedByEmail = c.claimedByEmail ∧
    (applyEditData profile c).emailPublic = c.emailPublic ∧
    storedProfile (applyEditData profile c) = submittedProfile profile := by
  refine ⟨?_, rfl, rfl, rfl, rfl, rfl, rfl⟩
  simp [editHandler, hv, hid, prismaUpdate]

/-- Witness for C6: a valid edit of the claimed fixture card. -/
theorem C6_witness :
    editHandler 5 wCardC.uid (some (mintOwnershipToken wUid 0))
        (some wProfile2) [wCardC] =
      Except.ok (EditResp.success, [applyEditData (some wProfile2) wCardC]) ∧
    (applyEditData (some wProfile2) wCardC).uid = wCardC.uid ∧
    (applyEditData (some wProfile2) wCardC).createdAt = wCardC.createdAt ∧
    (applyEditData (some wProfile2) wCardC).claimedAt = wCardC.claimedAt ∧
    (applyEditData (some wProfile2) wCardC).claimedByEmail =
      wCardC.claimedByEmail ∧
    (applyEditData (some wProfile2) wCardC).emailPublic =
      wCardC.emailPublic ∧
    storedProfile (applyEditData (some wProfile2) wCardC) =
      submittedProfile (some wProfile2) :=
  C6_edit_frame 5 (mintOwnershipToken wUid 0) ⟨wUid, none⟩ wCardC
    (some wProfile2) (by decide) rfl

/-!  Renderer helper lemmas. -/

/-- `jsStr` is `Option.getD ""`. -/
theorem jsStr_eq_getD (o : Option String) : jsStr o = o.getD "" := by
  cases o <;> rfl

/-- The rendered name line starts with the character `N`. -/
theorem vcardNLine_head (c : Card) : (vcardNLine c).data.head? = some 'N' := by
  show (("N:" : String) ++ _).data.head? = some 'N'
  rw [String.data_append]
  rfl

/-- The rendered name line is never the empty string. -/
theorem vcardNLine_ne_empty (c : Card) : vcardNLine c ≠ "" := by
  intro h
  have hh := vcardNLine_head c
  rw [h] at hh
  exact absurd hh (by decide)

/-- The rendered name line is not one of the boilerplate header/footer
lines. -/
theorem vcardNLine_not_boiler (c : Card) :
    vcardNLine c ∉ boilerplateLines := by
  intro h
  have hh := vcardNLine_head c
  simp only [boilerplateLines, List.mem_cons, List.not_mem_nil,
    or_false] at h
  rcases h with h | h | h <;> rw [h] at hh <;> exact absurd hh (by decide)

/-- The rendered name line survives the `filter(Boolean)` and is a line
of every rendered file. -/
theorem vcardNLine_mem (c : Card) : vcardNLine c ∈ vcardLines c := by
  have hne : (vcardNLine c).isEmpty = false := by
    cases hb : (vcardNLine c).isEmpty
    · rfl
    · exact absurd ((String.isEmpty_iff _).1 hb) (vcardNLine_ne_empty c)
  simp [vcardLines, List.mem_filter, hne]

/-- `hasProfileData` decides exactly the populatedness of its ten
consulted fields. -/
theorem hasProfileData_iff (c : Card) :
    hasProfileData c = true ↔ consultedFieldPopulated c := by
  simp only [hasProfileData, consultedFieldPopulated, Bool.or_eq_true]
  tauto

/-- A card with every profile field absent has no profile data. -/
theorem allAbsent_noData (c : Card) (h : profileAllAbsent c) :
    hasProfileData c = false := by
  obtain ⟨h1, h2, h3, h4, h5, h6, h7, h8, h9, h10, h11⟩ := h
  simp [hasProfileData, h1, h2, h3, h4, h5, h6, h7, h8, h9, h10, h11,
    optTruthy]

/-- C7 counterexample, in both directions of the claim's iff.  A card
whose only populated profile field is `socials` — a profile field
carrying identity-relevant information (the identity's social links) —
receives the no-content result, because `hasProfileData` never consults
`socials`.  Conversely, a card whose only populated field is `imageUrl`
— which `vcardFrom` never renders — receives a file instead of
no-content, and every line of that file is fixed skeleton: the
header/footer plus the empty-valued `N:;;;;` and `FN:` lines, i.e. a
document equivalent to having nothing to export. -/
theorem C7_counterexample :
    wCardSoc.socials = some [("x", "y")] ∧
    exportHandler wUid [wCardSoc] = ExportResp.noContent ∧
    wCardImg.imageUrl = some "https://img" ∧
    exportHandler wUid [wCardImg] =
      ExportResp.file "abcdefghij.vcf"
        "BEGIN:VCARD\r\nVERSION:3.0\r\nN:;;;;\r\nFN:\r\nEND:VCARD" :=
  ⟨rfl, by decide, rfl, by decide⟩

/-- C7 (amended): for an existing card, the export route answers the
explicit no-content result (not an error) exactly when none of the ten
fields `hasProfileData` consults — name, mobile, phone, emailPublic,
email, company, title, website, address, imageUrl — is populated.  This
set is not "the profile fields carrying identity-relevant information":
`socials` is never consulted (changing it never changes the export
outcome), and a populated `imageUrl` counts as content although it is
never rendered, so a card with only `imageUrl` set yields a
skeleton-only document (see the counterexample).  A card with every
profile field absent yields the no-content result, and a returned file
is always the render of the current row. -/
theorem C7_no_content_characterization (uid : String) (c : Card)
    (hc : c.uid = uid) :
    (exportHandler uid [c] = ExportResp.noContent ↔
      ¬ consultedFieldPopulated c) ∧
    (profileAllAbsent c → exportHandler uid [c] = ExportResp.noContent) ∧
    (∀ s : Option Socials,
      exportHandler uid [{ c with socials := s }] = exportHandler uid [c]) ∧
    (∀ fn body, exportHandler uid [c] = ExportResp.file fn body →
      body = vcardFrom c) := by
  have hfind : findUnique uid [c] = some c := by
    simp [findUnique, List.find?, hc]
  refine ⟨?_, ?_, ?_, ?_⟩
  · cases hpd : hasProfileData c
    · simp only [exportHandler, hfind, hpd]
      simp [← hasProfileData_iff, hpd]
    · simp only [exportHandler, hfind, hpd]
      simp [← hasProfileData_iff, hpd]
  · intro ha
    simp only [exportHandler, hfind, allAbsent_noData c ha]
    simp
  · intro s
    have hfind2 : findUnique uid [{ c with socials := s }] =
        some { c with socials := s } := by
      simp [findUnique, List.find?, hc]
    simp only [exportHandler, hfind2, hfind]
    rw [show hasProfileData { c with socials := s } = hasProfileData c
          from rfl,
        show vcardFrom { c with socials := s } = vcardFrom c from rfl]
  · intro fn body hfile
    simp only [exportHandler, hfind] at hfile
    cases hpd : hasProfileData c
    · rw [hpd] at hfile; simp at hfile
    · rw [hpd] at hfile
      simp at hfile
      exact hfile.2.symm

/-- Witness for the amended C7 on the blank card fixture, with the
socials-irrelevance conjunct exercised at a populated mapping. -/
theorem C7_witness :
    (exportHandler wUid [wCardU] = ExportResp.noContent ↔
      ¬ consultedFieldPopulated wCardU) ∧
    exportHandler wUid [wCardU] = ExportResp.noContent ∧
    exportHandler wUid [{ wCardU with socials := some [("x", "y")] }] =
      exportHandler wUid [wCardU] :=
  ⟨(C7_no_content_characterization wUid wCardU rfl).1,
   (C7_no_content_characterization wUid wCardU rfl).2.1
     ⟨rfl, rfl, rfl, rfl, rfl, rfl, rfl, rfl, rfl, rfl, rfl⟩,
   (C7_no_content_characterization wUid wCardU rfl).2.2.1
     (some [("x", "y")])⟩

/-!  Escaping and folding lemmas (QR-script renderer). -/

/-- `escBack` passes any non-backslash character through. -/
theorem escBack_cons_other {c : Char} {r : List Char} (h : c ≠ '\\') :
    escBack (c :: r) = c :: escBack r := by
  simp [escBack, h]

/-- `escNL` passes any non-line-break character through. -/
theorem escNL_cons_other {c : Char} {r : List Char} (h1 : c ≠ '\r')
    (h2 : c ≠ '\n') : escNL (c :: r) = c :: escNL r := by
  rw [escNL.eq_def]
  split <;> simp_all

/-- `escComma` passes any non-comma character through. -/
theorem escComma_cons_other {c : Char} {r : List Char} (h : c ≠ ',') :
    escComma (c :: r) = c :: escComma r := by
  simp [escComma, h]

/-- `escSemi` passes any non-semicolon character through. -/
theorem escSemi_cons_other {c : Char} {r : List Char} (h : c ≠ ';') :
    escSemi (c :: r) = c :: escSemi r := by
  simp [escSemi, h]

/-- `unescVCard` passes any non-backslash character through. -/
theorem unescVCard_cons_other {c : Char} {r : List Char} (h : c ≠ '\\') :
    unescVCard (c :: r) = c :: unescVCard r := by
  rw [unescVCard.eq_def]
  split <;> simp_all

/-- Unescaping inverts the four-stage escape on line-break-normalised
text (text whose line breaks are `\n`; a bare `\r` is normalised to `\n`
by the escape itself, so the inversion is stated away from `\r`). -/
theorem unesc_stages (l : List Char) (h : '\r' ∉ l) :
    unescVCard (escSemi (escComma (escNL (escBack l)))) = l := by
  induction l with
  | nil => rfl
  | cons c r ih =>
    have hr : '\r' ∉ r := fun hm => h (List.mem_cons_of_mem _ hm)
    have hc : c ≠ '\r' := fun he => h (he ▸ List.mem_cons_self _ _)
    have ih2 := ih hr
    by_cases h1 : c = '\\'
    · subst h1
      show '\\' :: unescVCard (escSemi (escComma (escNL (escBack r)))) =
        '\\' :: r
      rw [ih2]
    · by_cases h2 : c = '\n'
      · subst h2
        show '\n' :: unescVCard (escSemi (escComma (escNL (escBack r)))) =
          '\n' :: r
        rw [ih2]
      · by_cases h3 : c = ','
        · subst h3
          show ',' :: unescVCard (escSemi (escComma (escNL (escBack r)))) =
            ',' :: r
          rw [ih2]
        · by_cases h4 : c = ';'
          · subst h4
            show ';' :: unescVCard (escSemi (escComma (escNL (escBack r)))) =
              ';' :: r
            rw [ih2]
          · rw [escBack_cons_other h1, escNL_cons_other hc h2,
              escComma_cons_other h3, escSemi_cons_other h4,
              unescVCard_cons_other h1, ih2]

/-- `escapedOkAux` steps over an ordinary character. -/
theorem escapedOkAux_cons_other {c : Char} {r : List Char} (prev : Char)
    (h1 : c ≠ '\n') (h2 : c ≠ '\r') (h3 : c ≠ ',') (h4 : c ≠ ';') :
    escapedOkAux prev (c :: r) = escapedOkAux c r := by
  simp [escapedOkAux, h1, h2, h3, h4]

/-- The four-stage escape output satisfies the escaped-output condition
from any starting context. -/
theorem escapedOkAux_stages (l : List Char) (h : '\r' ∉ l) :
    ∀ prev : Char,
      escapedOkAux prev (escSemi (escComma (escNL (escBack l)))) = true := by
  induction l with
  | nil => intro prev; rfl
  | cons c r ih =>
    intro prev
    have hr : '\r' ∉ r := fun hm => h (List.mem_cons_of_mem _ hm)
    have hc : c ≠ '\r' := fun he => h (he ▸ List.mem_cons_self _ _)
    have ih2 := ih hr
    by_cases h1 : c = '\\'
    · subst h1
      show escapedOkAux '\\' (escSemi (escComma (escNL (escBack r)))) = true
      exact ih2 '\\'
    · by_cases h2 : c = '\n'
      · subst h2
        show escapedOkAux 'n' (escSemi (escComma (escNL (escBack r)))) = true
        exact ih2 'n'
      · by_cases h3 : c = ','
        · subst h3
          show escapedOkAux ','
            (escSemi (escComma (escNL (escBack r)))) = true
          exact ih2 ','
        · by_cases h4 : c = ';'
          · subst h4
            show escapedOkAux ';'
              (escSemi (escComma (escNL (escBack r)))) = true
            exact ih2 ';'
          · rw [escBack_cons_other h1, escNL_cons_other hc h2,
              escComma_cons_other h3, escSemi_cons_other h4,
              escapedOkAux_cons_other prev h2 hc h3 h4]
            exact ih2 c

/-- `unfoldLines` passes any non-CR character through. -/
theorem unfoldLines_cons_other {c : Char} {r : List Char} (h : c ≠ '\r') :
    unfoldLines (c :: r) = c :: unfoldLines r := by
  rw [unfoldLines.eq_def]
  split <;> simp_all

/-- Unfolding CR-free text is the identity. -/
theorem unfoldLines_no_cr (l : List Char) (h : '\r' ∉ l) :
    unfoldLines l = l := by
  induction l with
  | nil => rfl
  | cons c r ih =>
    have hc : c ≠ '\r' := fun he => h (he ▸ List.mem_cons_self _ _)
    rw [unfoldLines_cons_other hc,
      ih (fun hm => h (List.mem_cons_of_mem _ hm))]

/-- Unfolding deletes one inserted continuation break after a CR-free
prefix. -/
theorem unfoldLines_append (a X : List Char) (h : '\r' ∉ a) :
    unfoldLines (a ++ '\r' :: '\n' :: ' ' :: X) = a ++ unfoldLines X := by
  induction a with
  | nil => rfl
  | cons c r ih =>
    have hc : c ≠ '\r' := fun he => h (he ▸ List.mem_cons_self _ _)
    rw [List.cons_append, unfoldLines_cons_other hc,
      ih (fun hm => h (List.mem_cons_of_mem _ hm))]
    rfl

/-- The fueled folding loop is undone exactly by unfolding, for CR-free
input and sufficient fuel. -/
theorem unfold_foldGo (fuel : Nat) (l : List Char) (hf : l.length ≤ fuel)
    (h : '\r' ∉ l) : unfoldLines (foldGo fuel l) = l := by
  induction fuel generalizing l with
  | zero =>
    have : l = [] := List.eq_nil_of_length_eq_zero (Nat.le_zero.1 hf)
    subst this
    rfl
  | succ fuel ih =>
    by_cases hlen : l.length ≤ 70
    · rw [show foldGo (fuel + 1) l = l from by simp [foldGo, hlen]]
      exact unfoldLines_no_cr l h
    · rw [show foldGo (fuel + 1) l =
          l.take 70 ++ '\r' :: '\n' :: ' ' :: foldGo fuel (l.drop 70) from
          by simp [foldGo, hlen]]
      rw [unfoldLines_append _ _
        (fun hm => h (List.take_subset 70 l hm))]
      rw [ih (l.drop 70)
        (by simp [List.length_drop]; omega)
        (fun hm => h (List.drop_subset 70 l hm))]
      exact List.take_append_drop 70 l

/-- C8 roundtrip on a single folded line. -/
theorem unfold_foldLine (l : List Char) (h : '\r' ∉ l) :
    unfoldLines (foldLine l) = l :=
  unfold_foldGo l.length l (Nat.le_refl _) h

/-- `splitCRLF` steps over a non-CR character. -/
theorem splitCRLF_cons_other {c : Char} {r x : List Char}
    {xs : List (List Char)} (h : c ≠ '\r')
    (hx : splitCRLF r = x :: xs) :
    splitCRLF (c :: r) = (c :: x) :: xs := by
  rw [splitCRLF.eq_def]
  split
  · simp_all
  · simp_all
  · rename_i heq
    obtain ⟨he1, he2⟩ := heq  -- placeholder, adjusted if needed
    simp_all

/-- A CR-free stream is a single physical line. -/
theorem splitCRLF_no_cr (l : List Char) (h : '\r' ∉ l) :
    splitCRLF l = [l] := by
  induction l with
  | nil => rfl
  | cons c r ih =>
    have hc : c ≠ '\r' := fun he => h (he ▸ List.mem_cons_self _ _)
    exact splitCRLF_cons_other hc (ih (fun hm => h (List.mem_cons_of_mem _ hm)))

/-- Splitting after a CR-free prefix followed by an inserted CRLF. -/
theorem splitCRLF_append (a X : List Char) (h : '\r' ∉ a) :
    splitCRLF (a ++ '\r' :: '\n' :: X) = a :: splitCRLF X := by
  induction a with
  | nil => rfl
  | cons c r ih =>
    have hc : c ≠ '\r' := fun he => h (he ▸ List.mem_cons_self _ _)
    rw [List.cons_append]
    exact splitCRLF_cons_other hc (ih (fun hm => h (List.mem_cons_of_mem _ hm)))

/-- Physical-line bounds of the fueled folding loop: the first physical
line has at most 70 characters and every physical line at most 71 (a
continuation line is the space plus a 70-character chunk). -/
theorem foldGo_lines (fuel : Nat) (l : List Char) (hf : l.length ≤ fuel)
    (h : '\r' ∉ l) :
    ∃ x xs, splitCRLF (foldGo fuel l) = x :: xs ∧ x.length ≤ 70 ∧
      ∀ p ∈ x :: xs, p.length ≤ 71 := by
  induction fuel generalizing l with
  | zero =>
    have : l = [] := List.eq_nil_of_length_eq_zero (Nat.le_zero.1 hf)
    subst this
    exact ⟨[], [], rfl, by simp, by simp⟩
  | succ fuel ih =>
    by_cases hlen : l.length ≤ 70
    · rw [show foldGo (fuel + 1) l = l from by simp [foldGo, hlen]]
      rw [splitCRLF_no_cr l h]
      exact ⟨l, [], rfl, hlen, by simpa using Nat.le_succ_of_le hlen⟩
    · rw [show foldGo (fuel + 1) l =
          l.take 70 ++ '\r' :: '\n' :: ' ' :: foldGo fuel (l.drop 70) from
          by simp [foldGo, hlen]]
      obtain ⟨x, xs, hx, hx70, hall⟩ := ih (l.drop 70)
        (by simp [List.length_drop]; omega)
        (fun hm => h (List.drop_subset 70 l hm))
      rw [splitCRLF_append _ _ (fun hm => h (List.take_subset 70 l hm))]
      rw [splitCRLF_cons_other (by decide) hx]
      refine ⟨l.take 70, (' ' :: x) :: xs, rfl, ?_, ?_⟩
      · simp [List.length_take]
      · intro p hp
        rcases List.mem_cons.1 hp with hp | hp
        · subst hp; simp [List.length_take]
        · rcases List.mem_cons.1 hp with hp | hp
          · subst hp
            simpa using Nat.succ_le_succ hx70
          · exact hall p (List.mem_cons_of_mem _ hp)

/-- C8 counterexample: the server's renderer (`vcardFrom`) interpolates
field values verbatim: for a card whose company is `a,b`, the rendered
file contains the line `ORG:a,b`, in which the comma is not preceded by
a backslash — the escaping the claim asserts does not happen in this
renderer. -/
theorem C8_counterexample :
    "ORG:a,b" ∈ vcardLines wCardComma ∧
    hasUnescapedComma "ORG:a,b".data = true := by
  constructor
  · decide
  · decide

/-- C8 (amended): the server's `exportContactFile` renderer performs no
escaping and no folding (field values appear verbatim, see the
counterexample); the escaping/folding properties hold of the standalone
QR-generator script's renderer instead: `vEscape` escapes backslash,
comma and semicolon with a preceding backslash and turns embedded line
breaks into the two-character escape (its output has every comma and
semicolon backslash-preceded and no raw line break), re-parsing per the
contact-file format recovers the original text exactly (stated for text
whose line breaks are `\n`, since a bare `\r` is normalised by the
escape), and `foldVCard`'s per-line loop soft-wraps every line longer
than 70 characters with the CRLF-plus-space continuation convention:
unfolding recovers the text and every physical line has at most 71
characters (70 for the first). -/
theorem C8_script_escaping :
    (∀ s : String, '\r' ∉ s.data →
      unescVCard (vEscape s).data = s.data) ∧
    (∀ s : String, '\r' ∉ s.data → escapedOk (vEscape s).data = true) ∧
    (∀ l : List Char, '\r' ∉ l → unfoldLines (foldLine l) = l) ∧
    (∀ l : List Char, '\r' ∉ l →
      ∀ p ∈ splitCRLF (foldLine l), p.length ≤ 71) := by
  refine ⟨?_, ?_, ?_, ?_⟩
  · intro s hs
    exact unesc_stages s.data hs
  · intro s hs
    exact escapedOkAux_stages s.data hs 'A'
  · intro l hl
    exact unfold_foldLine l hl
  · intro l hl p hp
    obtain ⟨x, xs, hx, _, hall⟩ :=
      foldGo_lines l.length l (Nat.le_refl _) hl
    rw [show foldLine l = foldGo l.length l from rfl, hx] at hp
    exact hall p hp

/-- Witness for the amended C8: a field containing a comma, a semicolon,
a backslash and an embedded line break, and a 100-character line. -/
theorem C8_witness :
    unescVCard (vEscape "a,b;c\nd\\e").data = "a,b;c\nd\\e".data ∧
    escapedOk (vEscape "a,b;c\nd\\e").data = true ∧
    unfoldLines (foldLine wLongLine) = wLongLine ∧
    (List.replicate 70 'x').length ≤ 71 :=
  ⟨C8_script_escaping.1 "a,b;c\nd\\e" (by decide),
   C8_script_escaping.2.1 "a,b;c\nd\\e" (by decide),
   C8_script_escaping.2.2.1 wLongLine (by decide),
   C8_script_escaping.2.2.2 wLongLine (by decide)
     (List.replicate 70 'x') (by decide)⟩

/-!  Tokenization lemmas for the name split. -/

/-- Leading whitespace does not change the token runs. -/
theorem tokenRunsAux_dropWhile (l : List Char) :
    tokenRunsAux [] (l.dropWhile isWsChar) = tokenRunsAux [] l := by
  induction l with
  | nil => rfl
  | cons c r ih =>
    by_cases hw : isWsChar c
    · rw [List.dropWhile_cons]
      simp only [hw, if_true, ih]
      simp [tokenRunsAux, hw]
    · rw [List.dropWhile_cons]
      simp [hw]

/-- On all-whitespace input the tokenizer just flushes its accumulator. -/
theorem tokenRunsAux_ws (t : List Char)
    (hw : ∀ c ∈ t, isWsChar c = true) :
    ∀ acc, tokenRunsAux acc t =
      if acc.isEmpty then [] else [acc.reverse] := by
  induction t with
  | nil => intro acc; rfl
  | cons c t ih =>
    intro acc
    have hc : isWsChar c = true := hw c (List.mem_cons_self _ _)
    have ih2 := ih (fun d hd => hw d (List.mem_cons_of_mem _ hd))
    by_cases ha : acc.isEmpty <;> simp [tokenRunsAux, hc, ha, ih2 []]

/-- Trailing whitespace does not change the token runs. -/
theorem tokenRunsAux_append_ws (l t : List Char)
    (hw : ∀ c ∈ t, isWsChar c = true) :
    ∀ acc, tokenRunsAux acc (l ++ t) = tokenRunsAux acc l := by
  induction l with
  | nil =>
    intro acc
    rw [List.nil_append, tokenRunsAux_ws t hw acc]
    rfl
  | cons c r ih =>
    intro acc
    rw [List.cons_append]
    by_cases hw2 : isWsChar c <;> by_cases ha : acc.isEmpty <;>
      simp [tokenRunsAux, hw2, ha, ih]

/-- Restoring the whitespace suffix removed by `dropTrailingWs`. -/
theorem dropTrailingWs_decomp (l : List Char) :
    dropTrailingWs l ++ (l.reverse.takeWhile isWsChar).reverse = l := by
  rw [dropTrailingWs, ← List.reverse_append,
    List.takeWhile_append_dropWhile, List.reverse_reverse]

/-- Trimming does not change the whitespace-separated tokens. -/
theorem wsTokens_trim (s : String) : wsTokens (jsTrim s) = wsTokens s := by
  show (tokenRunsAux [] (dropTrailingWs
      (s.data.dropWhile isWsChar))).map String.mk =
    (tokenRunsAux [] s.data).map String.mk
  have hsuffix : ∀ c ∈ ((s.data.dropWhile isWsChar).reverse.takeWhile
      isWsChar).reverse, isWsChar c = true := by
    intro c hc
    exact List.mem_takeWhile_imp (List.mem_reverse.1 hc)
  calc (tokenRunsAux [] (dropTrailingWs
          (s.data.dropWhile isWsChar))).map String.mk
      = (tokenRunsAux [] (dropTrailingWs (s.data.dropWhile isWsChar) ++
          ((s.data.dropWhile isWsChar).reverse.takeWhile
            isWsChar).reverse)).map String.mk := by
        rw [tokenRunsAux_append_ws _ _ hsuffix]
    _ = (tokenRunsAux [] (s.data.dropWhile isWsChar)).map String.mk := by
        rw [dropTrailingWs_decomp]
    _ = (tokenRunsAux [] s.data).map String.mk := by
        rw [tokenRunsAux_dropWhile]

/-- A string whose trim is empty has no tokens. -/
theorem wsTokens_nil_of_trim_empty (s : String) (h : jsTrim s = "") :
    wsTokens s = [] := by
  rw [← wsTokens_trim s, h]
  rfl

/-- C9 counterexample: for the three-word name `Ada Byron Lovelace` the
renderer's first-name component is only the first token `Ada`; the
middle token `Byron` is dropped, so "everything before the last token is
folded into the first-name position" (which would give `Ada Byron`) is
false. -/
theorem C9_counterexample :
    wsTokens "Ada Byron Lovelace" = ["Ada", "Byron", "Lovelace"] ∧
    vcardNameParts "Ada Byron Lovelace" = ("Ada", "Lovelace") ∧
    ("Ada" : String) ≠ "Ada Byron" :=
  ⟨by decide, by decide, by decide⟩

/-- C9 (amended): the renderer's name line takes the FIRST
whitespace-separated token of the name as the first-name component (not
the fold of all tokens but the last: intermediate tokens are dropped)
and the last token as the last-name component when there are at least
two tokens; a single-word or empty name gets an empty last-name
component. -/
theorem C9_name_split (name : String) :
    vcardNameParts name =
      ((wsTokens name).head?.getD "",
       if 1 < (wsTokens name).length then (wsTokens name).getLast?.getD ""
       else "") ∧
    (∀ c : Card, c.name = some name →
      vcardNLine c = "N:" ++
        ((if 1 < (wsTokens name).length then
            (wsTokens name).getLast?.getD "" else "") ++ ";" ++
         (wsTokens name).head?.getD "" ++ ";;;")) := by
  have h1 : vcardNameParts name =
      ((wsTokens name).head?.getD "",
       if 1 < (wsTokens name).length then (wsTokens name).getLast?.getD ""
       else "") := by
    by_cases ht : (jsTrim name).isEmpty
    · have hnil : wsTokens name = [] :=
        wsTokens_nil_of_trim_empty name ((String.isEmpty_iff _).1 ht)
      simp [vcardNameParts, splitWsJS, ht, hnil, jsStr]
    · have hsp : splitWsJS name = wsTokens name := by
        simp [splitWsJS, ht, wsTokens_trim]
      simp [vcardNameParts, hsp, jsStr_eq_getD]
  refine ⟨h1, ?_⟩
  intro c hc
  rw [vcardNLine, hc]
  show "N:" ++ ((vcardNameParts name).2 ++ ";" ++
    (vcardNameParts name).1 ++ ";;;") = _
  rw [h1]

/-- Witness for the amended C9 on the spec's round-trip name. -/
theorem C9_witness :
    vcardNameParts "Ada Lovelace" =
      ((wsTokens "Ada Lovelace").head?.getD "",
       if 1 < (wsTokens "Ada Lovelace").length then
         (wsTokens "Ada Lovelace").getLast?.getD "" else "") ∧
    vcardNLine { uid := wUid, name := some "Ada Lovelace" } = "N:" ++
      ((if 1 < (wsTokens "Ada Lovelace").length then
          (wsTokens "Ada Lovelace").getLast?.getD "" else "") ++ ";" ++
       (wsTokens "Ada Lovelace").head?.getD "" ++ ";;;") :=
  ⟨(C9_name_split "Ada Lovelace").1,
   (C9_name_split "Ada Lovelace").2 { uid := wUid, name := some "Ada Lovelace" } rfl⟩

/-- C10 counterexample: a successful claim with the profile object
entirely absent does NOT store null for every profile field: `socials`
is written as the empty mapping (`socials: profile?.socials ?? {}`), not
null — here on a card that previously carried a socials mapping. -/
theorem C10_counterexample :
    claimHandler 5 ⟨some wUid, some (mintClaimToken wUid), none, none⟩
        [wCardSoc] =
      (ClaimResp.ok wUid (mintOwnershipToken wUid 5),
       [applyClaimData 5 none none wCardSoc]) ∧
    wCardSoc.socials = some [("x", "y")] ∧
    (applyClaimData 5 none none wCardSoc).socials = some [] ∧
    (applyClaimData 5 none none wCardSoc).socials ≠ none :=
  ⟨by decide, rfl, rfl, by decide⟩

/-- C10 (amended): the claim route requires only the identifier and the
claim token to be present — a JS-falsy (absent or empty) `uid` or
`claimToken` fails with `missingParams`; the profile object may be
entirely absent, in which case a successful claim stores null for every
profile field EXCEPT `socials`, which is stored as the empty mapping
(not null); and both the claim write and the edit write replace the
whole stored profile — the stored profile after the write is a function
of the submitted profile alone (omitted text fields become null, omitted
`socials` becomes the empty mapping), never of the previously stored
values. -/
theorem C10_replace_semantics :
    (∀ (now : Nat) (req : ClaimReq) (store : List Card),
      strFalsy req.uid = true ∨ tokenFalsy req.claimToken = true →
      claimHandler now req store = (ClaimResp.missingParams, store)) ∧
    (∀ (now : Nat) (uid : String) (e : Option String) (c : Card),
      c.uid = uid → uid.isEmpty = false → c.claimedAt = none →
      claimHandler now ⟨some uid, some (mintClaimToken uid), none, e⟩ [c] =
        (ClaimResp.ok uid (mintOwnershipToken uid now),
         [applyClaimData now none e c]) ∧
      storedProfile (applyClaimData now none e c) =
        ⟨none, none, none, none, none, none, none, none, some [], none⟩) ∧
    (∀ (p : Option ProfileIn) (c c2 : Card),
      storedProfile (applyEditData p c) = storedProfile (applyEditData p c2) ∧
      storedProfile (applyEditData p c) = submittedProfile p) ∧
    (∀ (now : Nat) (p : Option ProfileIn) (e : Option String) (c c2 : Card),
      storedProfile (applyClaimData now p e c) =
        storedProfile (applyClaimData now p e c2) ∧
      storedProfile (applyClaimData now p e c) = submittedProfile p) := by
  refine ⟨?_, ?_, ?_, ?_⟩
  · intro now req store h
    have hg : (strFalsy req.uid || tokenFalsy req.claimToken) = true := by
      rcases h with h | h <;> simp [h]
    simp [claimHandler, hg]
  · intro now uid e c hc he hun
    subst hc
    exact ⟨claimHandler_unclaimed now none e c hun he, rfl⟩
  · intro p c c2
    exact ⟨rfl, rfl⟩
  · intro now p e c c2
    exact ⟨rfl, rfl⟩

/-- Witness for the amended C10 at concrete requests and cards: an
absent token and an empty-string token each fail with `missingParams`. -/
theorem C10_witness :
    claimHandler 5 ⟨none, none, none, none⟩ [wCardU] =
      (ClaimResp.missingParams, [wCardU]) ∧
    claimHandler 5 ⟨some wUid, some (Token.malformed ""), none, none⟩
        [wCardU] =
      (ClaimResp.missingParams, [wCardU]) ∧
    (claimHandler 5 ⟨some wUid, some (mintClaimToken wUid), none, none⟩
        [wCardSoc] =
      (ClaimResp.ok wUid (mintOwnershipToken wUid 5),
       [applyClaimData 5 none none wCardSoc]) ∧
     storedProfile (applyClaimData 5 none none wCardSoc) =
       ⟨none, none, none, none, none, none, none, none, some [], none⟩) ∧
    (storedProfile (applyEditData (some wProfile2) wCardC) =
       storedProfile (applyEditData (some wProfile2) wCardU) ∧
     storedProfile (applyEditData (some wProfile2) wCardC) =
       submittedProfile (some wProfile2)) :=
  ⟨C10_replace_semantics.1 5 ⟨none, none, none, none⟩ [wCardU] (Or.inl rfl),
   C10_replace_semantics.1 5 ⟨some wUid, some (Token.malformed ""), none,
     none⟩ [wCardU] (Or.inr rfl),
   C10_replace_semantics.2.1 5 wUid none wCardSoc rfl rfl rfl,
   C10_replace_semantics.2.2.1 (some wProfile2) wCardC wCardU⟩
